import Mathlib

/-
  Verification of the room101-ci/agent build worker core against its design
  document.

  The development shallowly embeds the Go sources:
    * `src/event/hub.go`        — the replayable event hub (namespace `Event`)
    * `src/api/check/handler.go`— the check HTTP handler (namespace `Check`)
  and, for components whose implementation is not among the provided sources
  (only their tests are), models the behaviour from the design document:
    * the build orchestrator `Builder.Build` (namespace `Builder`)
    * the build configuration `Config.Merge` (namespace `Turbine`)

  Go interface values become type parameters, slices become lists, maps become
  association lists with lookup semantics, and the `(value, err)` idiom becomes
  explicit `Except` / `Option` values.  The hub's concurrency is modelled in
  its quiescent states: all claims under examination run a subscriber loop
  against a hub that is no longer being mutated, so `Subscribe` is a pure
  function of the hub state and the starting offset.
-/

namespace Agent

namespace Event

/-- One slot of the event log (`eventOccurrence` in `hub.go`): the event value
(`nil` until filled, modelled by `Option`) and the one-shot `occurred` signal
(a closed channel, modelled by a `Bool` that is `true` once signalled). -/
structure eventOccurrence (E : Type) where
  event : Option E
  occurred : Bool
deriving DecidableEq, Repr

/-- The hub (`Hub` in `hub.go`): the slot log and the closed flag.  The
`sync.RWMutex` only serialises access and has no effect on the sequential
state, so it is not represented. -/
structure Hub (E : Type) where
  events : List (eventOccurrence E)
  closed : Bool
deriving DecidableEq, Repr

variable {E : Type}

/-- `NewHub`: a hub whose log holds a single open (unfilled, unsignalled)
slot. -/
def NewHub : Hub E :=
  { events := [{ event := none, occurred := false }], closed := false }

/-- Apply `f` to the last element of a list (models in-place mutation of the
slot `h.events[len(h.events)-1]`, which is shared by pointer). -/
def updateLast (f : α → α) : List α → List α
  | [] => []
  | [x] => [f x]
  | x :: y :: xs => x :: updateLast f (y :: xs)

/-- `Hub.EmitEvent`: a no-op on a closed hub; otherwise the current last slot
receives the event value and is signalled, and a fresh open slot is appended.
In Go the three steps are `occ.event = event`, `append(h.events, nextOcc)`,
`close(occ.occurred)`; the slot is shared by pointer, so the net log is the
one below. -/
def Hub.EmitEvent (h : Hub E) (e : E) : Hub E :=
  if h.closed then h
  else
    { h with
        events :=
          updateLast (fun occ => { occ with event := some e, occurred := true })
            h.events ++ [{ event := none, occurred := false }] }

/-- `Hub.Close`: a no-op on a closed hub; otherwise marks the hub closed and
signals the current last slot without giving it an event value. -/
def Hub.Close (h : Hub E) : Hub E :=
  if h.closed then h
  else
    { h with
        closed := true,
        events := updateLast (fun occ => { occ with occurred := true }) h.events }

/-- Outcome of a subscriber loop run against a quiescent hub: the values sent
on the destination channel (the close-marker slot holds `none`), and whether
the loop closed the destination (`closedDest`) or is still blocked waiting on
an unsignalled slot (`blocked`). -/
inductive SubOutcome (E : Type) where
  | closedDest (delivered : List (Option E))
  | blocked (delivered : List (Option E))
deriving DecidableEq, Repr

/-- The body of `Hub.Subscribe`'s loop over the slots at indices `i ≥ from`,
which (the log being quiescent) are exactly the suffix `h.events.drop from`:
if `i` is out of bounds, close the destination and return; otherwise wait on
the slot's signal (an unsignalled slot blocks the loop forever here, since no
producer nor cancel is pending) and send `occ.event` on the destination. -/
def deliverFrom : List (eventOccurrence E) → SubOutcome E
  | [] => .closedDest []
  | occ :: rest =>
    if occ.occurred then
      match deliverFrom rest with
      | .closedDest ds => .closedDest (occ.event :: ds)
      | .blocked ds => .blocked (occ.event :: ds)
    else .blocked []

/-- `Hub.Subscribe(from, dest, stop)` on a quiescent hub with an always-ready
destination and no cancel signal. -/
def Hub.Subscribe (h : Hub E) (fromOffset : Nat) : SubOutcome E :=
  deliverFrom (h.events.drop fromOffset)

/-- The hub state after `NewHub` followed by `EmitEvent` for each event of
`es`, in order. -/
def hubAfter (es : List E) : Hub E :=
  es.foldl Hub.EmitEvent NewHub

/-- A filled, signalled slot holding `e`. -/
def filledSlot (e : E) : eventOccurrence E :=
  { event := some e, occurred := true }

/-- The open slot: unfilled, unsignalled. -/
def openSlot : eventOccurrence E :=
  { event := none, occurred := false }

/-- The close-marker slot: signalled with no event value. -/
def closeMarker : eventOccurrence E :=
  { event := none, occurred := true }

theorem updateLast_append_singleton (f : α → α) (xs : List α) (x : α) :
    updateLast f (xs ++ [x]) = xs ++ [f x] := by
  induction xs with
  | nil => simp [updateLast]
  | cons a as ih =>
    cases as with
    | nil => simp [updateLast]
    | cons b bs => simpa [updateLast] using ih

theorem emitEvent_filled (pre : List E) (e : E) :
    Hub.EmitEvent { events := pre.map filledSlot ++ [openSlot], closed := false } e
      = { events := (pre ++ [e]).map filledSlot ++ [openSlot], closed := false } := by
  simp [Hub.EmitEvent, updateLast_append_singleton, openSlot, filledSlot]

theorem foldl_emit_filled (es pre : List E) :
    es.foldl Hub.EmitEvent
        { events := pre.map filledSlot ++ [openSlot], closed := false }
      = { events := (pre ++ es).map filledSlot ++ [openSlot], closed := false } := by
  induction es generalizing pre with
  | nil => simp
  | cons e es ih =>
    rw [List.foldl_cons, emitEvent_filled, ih]
    simp

theorem hubAfter_events (es : List E) :
    hubAfter es = { events := es.map filledSlot ++ [openSlot], closed := false } := by
  have h := foldl_emit_filled es ([] : List E)
  simpa [hubAfter, NewHub, openSlot] using h

theorem close_hubAfter (es : List E) :
    (hubAfter es).Close
      = { events := es.map filledSlot ++ [closeMarker], closed := true } := by
  rw [hubAfter_events]
  simp [Hub.Close, updateLast_append_singleton, openSlot, closeMarker]

theorem deliverFrom_filled_append (xs : List E) (t : List (eventOccurrence E)) :
    deliverFrom (xs.map filledSlot ++ t)
      = match deliverFrom t with
        | .closedDest ds => .closedDest (xs.map some ++ ds)
        | .blocked ds => .blocked (xs.map some ++ ds) := by
  induction xs with
  | nil => cases h : deliverFrom t <;> simp [h]
  | cons x xs ih =>
    cases h : deliverFrom t <;>
      simp [deliverFrom, filledSlot, ih, h]

theorem closed_Close (h : Hub E) : (h.Close).closed = true := by
  by_cases hc : h.closed <;> simp [Hub.Close, hc]

theorem emitEvent_of_closed (h : Hub E) (e : E) (hc : h.closed = true) :
    h.EmitEvent e = h := by
  simp [Hub.EmitEvent, hc]

theorem close_of_closed (h : Hub E) (hc : h.closed = true) : h.Close = h := by
  simp [Hub.Close, hc]

theorem subscribe_hubAfter (es : List E) (k : Nat) (hk : k ≤ es.length) :
    (hubAfter es).Subscribe k = .blocked ((es.drop k).map some) := by
  rw [hubAfter_events]
  simp only [Hub.Subscribe]
  rw [List.drop_append_of_le_length (by simpa using hk), ← List.map_drop,
    deliverFrom_filled_append]
  simp [deliverFrom, openSlot]

/-- C1: `Subscribe` from offset 0 on a hub that received the events 1, 2, 3
and was then closed delivers a fourth, valueless send (the close-marker
slot's `nil` event) on the destination before closing it, so `Subscribe` does
deliver a value for the close-marker slot, contrary to the claim (the loop in
`hub.go` sends `occ.event` for every in-bounds signalled slot without
checking whether the slot holds an event value). -/
theorem subscribe_after_close_delivers_marker :
    ((hubAfter [1, 2, 3]).Close).Subscribe 0
      = .closedDest [some 1, some 2, some 3, (none : Option Nat)] := by
  decide

/-- C3: after `NewHub` and any sequence of emissions `es` performed before
`Close`, the log is exactly the filled slots holding `es` in order, followed
by the single unfilled slot (the last one); and that filled prefix is
untouched — not mutated, removed or reordered — by any later emissions
`more` and by `Close`. -/
theorem hub_log_append_only_invariant (es more : List E) :
    (hubAfter es).events = es.map filledSlot ++ [openSlot]
      ∧ (hubAfter (es ++ more)).events.take es.length = es.map filledSlot
      ∧ ((hubAfter (es ++ more)).Close).events.take es.length = es.map filledSlot := by
  refine ⟨by rw [hubAfter_events], ?_, ?_⟩
  · rw [hubAfter_events]
    show ((es ++ more).map filledSlot ++ [openSlot]).take es.length = _
    rw [List.map_append, List.append_assoc]
    exact List.take_left' (by simp)
  · rw [close_hubAfter]
    show ((es ++ more).map filledSlot ++ [closeMarker]).take es.length = _
    rw [List.map_append, List.append_assoc]
    exact List.take_left' (by simp)

/-- C4: on a hub with emitted events `es` (emission finished, no close), a
subscriber from offset `k ≤ N` receives exactly the events at positions
`k..N-1`, in order, and then blocks on the open slot (no further values, and
the destination is not closed); the values received are exactly the values an
offset-0 subscriber receives from position `k` onward. -/
theorem subscribe_replay_consistency (es : List E) (k : Nat) (hk : k ≤ es.length) :
    (hubAfter es).Subscribe k = .blocked ((es.drop k).map some)
      ∧ (hubAfter es).Subscribe 0 = .blocked (es.map some)
      ∧ (es.drop k).map some = (es.map some).drop k := by
  refine ⟨subscribe_hubAfter es k hk, ?_, List.map_drop some es k⟩
  simpa using subscribe_hubAfter es 0 (Nat.zero_le _)

theorem subscribe_replay_consistency_witness :
    1 ≤ ([10, 20, 30] : List Nat).length
      ∧ ((hubAfter ([10, 20, 30] : List Nat)).Subscribe 1
            = .blocked ((([10, 20, 30] : List Nat).drop 1).map some)
          ∧ (hubAfter ([10, 20, 30] : List Nat)).Subscribe 0
              = .blocked (([10, 20, 30] : List Nat).map some)
          ∧ (([10, 20, 30] : List Nat).drop 1).map some
              = (([10, 20, 30] : List Nat).map some).drop 1) :=
  ⟨by decide, subscribe_replay_consistency [10, 20, 30] 1 (by decide)⟩

/-- C5: a hub on which `Close` has been called ignores any later `EmitEvent`
without error: the state — log length, every slot, closed flag — is
unchanged, so the emitted event appears in no subscriber's stream. -/
theorem emit_after_close_inert (h : Hub E) (e : E) :
    (h.Close).EmitEvent e = h.Close
      ∧ ∀ k : Nat, ((h.Close).EmitEvent e).Subscribe k = (h.Close).Subscribe k := by
  have he := emitEvent_of_closed (h.Close) e (closed_Close h)
  exact ⟨he, fun k => by rw [he]⟩

/-- C6: requesting an offset at or beyond the log length — in particular any
offset greater than it — immediately closes the destination with nothing
delivered: no error, no blocking. -/
theorem subscribe_out_of_range_ends (h : Hub E) (k : Nat)
    (hk : h.events.length ≤ k) : h.Subscribe k = .closedDest [] := by
  simp only [Hub.Subscribe]
  rw [List.drop_eq_nil_of_le hk]
  rfl

theorem subscribe_out_of_range_ends_witness :
    (hubAfter ([1, 2] : List Nat)).events.length ≤ 5
      ∧ (hubAfter ([1, 2] : List Nat)).Subscribe 5 = .closedDest [] :=
  ⟨by decide, subscribe_out_of_range_ends _ 5 (by decide)⟩

/-- C7: `Close` is idempotent: a second `Close` is a no-op that changes no
state (so no slot is signalled again), and every subscriber observes exactly
the same stream whether `Close` was called once or twice. -/
theorem close_idempotent (h : Hub E) :
    (h.Close).Close = h.Close
      ∧ ∀ k : Nat, ((h.Close).Close).Subscribe k = (h.Close).Subscribe k := by
  have hc := close_of_closed (h.Close) (closed_Close h)
  exact ⟨hc, fun k => by rw [hc]⟩

end Event

namespace Builder

/-- The build's input description (`builds.BuildSource`): resource type,
source URI, and the destination path inside the container. -/
structure BuildSource where
  type_ : String
  uri : String
  path : String
deriving DecidableEq, Repr

/-- The build specification (`builds.Build`): container image, script, and
input source. -/
structure Build where
  image : String
  script : String
  source : BuildSource
deriving DecidableEq, Repr

/-- The external capabilities the orchestrator drives, as result oracles:
source fetch (yields a filesystem path), container creation (yields a
handle), copy-in, and script run (spawn may fail; otherwise the process
stream ends with an exit status). -/
structure BuilderDeps where
  fetch : BuildSource → Except String String
  create : String → Except String String
  copyIn : String → String → String → Except String Unit
  run : String → String → Except String Nat

/-- A recorded copy-in request (`fake_connection.CopyInSpec`). -/
structure CopyInSpec where
  source : String
  destination : String
deriving DecidableEq, Repr

/-- The result of one `Build` call: the `(succeeded, err)` pair together with
the copy-ins and process spawns the orchestrator requested. -/
structure BuildResult where
  succeeded : Bool
  err : Option String
  copies : List CopyInSpec
  spawned : List (String × String)
deriving DecidableEq, Repr

/-- Whether a path already ends in the separator. -/
def endsWithSep (s : String) : Bool :=
  s.data.getLast? == some '/'

/-- Normalize a path to end in a trailing separator, whether or not the
caller-supplied path already had one. -/
def withTrailingSlash (s : String) : String :=
  if endsWithSep s then s else s ++ "/"

theorem endsWithSep_append_sep (s : String) : endsWithSep (s ++ "/") = true := by
  have h2 : (s ++ "/").data = s.data ++ ['/'] := rfl
  simp [endsWithSep, h2]

theorem endsWithSep_withTrailingSlash (s : String) :
    endsWithSep (withTrailingSlash s) = true := by
  by_cases h : endsWithSep s = true
  · simp [withTrailingSlash, h]
  · rw [withTrailingSlash, if_neg h]
    exact endsWithSep_append_sep s

theorem withTrailingSlash_idem (s : String) :
    withTrailingSlash (withTrailingSlash s) = withTrailingSlash s := by
  rw [withTrailingSlash, if_pos (endsWithSep_withTrailingSlash s)]

/-- Modelled from the spec: the implementation of `Builder.Build` is not
among the provided sources (only its tests under `src/builder` are).  Per
§4.2, the pipeline is FetchingSource → CreatingContainer → StagingInputs →
Running → Evaluating: each step failure halts the build and surfaces the
underlying error verbatim with `succeeded = false`; staging copies the
fetched path to the build's configured destination path, both normalized
with trailing separators; once the process stream yields an exit status the
call returns `err = nil` and `succeeded` true exactly when the status is 0. -/
def Build.run (deps : BuilderDeps) (b : Build) : BuildResult :=
  match deps.fetch b.source with
  | .error e => ⟨false, some e, [], []⟩
  | .ok fetchedPath =>
    match deps.create b.image with
    | .error e => ⟨false, some e, [], []⟩
    | .ok handle =>
      let src := withTrailingSlash fetchedPath
      let dst := withTrailingSlash b.source.path
      match deps.copyIn handle src dst with
      | .error e => ⟨false, some e, [⟨src, dst⟩], []⟩
      | .ok _ =>
        match deps.run handle b.script with
        | .error e => ⟨false, some e, [⟨src, dst⟩], [(handle, b.script)]⟩
        | .ok status => ⟨status == 0, none, [⟨src, dst⟩], [(handle, b.script)]⟩

/-- C2: the two outcome axes of `Build`.  A failing fetch, container
creation, copy-in or spawn yields `succeeded = false` with the underlying
error surfaced verbatim as the non-nil `err`; when the script runs to an
exit status, `err` is nil and `succeeded` is true exactly for status 0 (so
any non-zero status yields `(false, nil)`). -/
theorem build_outcome_axes (deps : BuilderDeps) (b : Build) :
    (∀ e, deps.fetch b.source = .error e →
      (Build.run deps b).succeeded = false ∧ (Build.run deps b).err = some e)
      ∧ (∀ p e, deps.fetch b.source = .ok p → deps.create b.image = .error e →
          (Build.run deps b).succeeded = false ∧ (Build.run deps b).err = some e)
      ∧ (∀ p h e, deps.fetch b.source = .ok p → deps.create b.image = .ok h →
          deps.copyIn h (withTrailingSlash p) (withTrailingSlash b.source.path)
            = .error e →
          (Build.run deps b).succeeded = false ∧ (Build.run deps b).err = some e)
      ∧ (∀ p h e, deps.fetch b.source = .ok p → deps.create b.image = .ok h →
          deps.copyIn h (withTrailingSlash p) (withTrailingSlash b.source.path)
            = .ok () →
          deps.run h b.script = .error e →
          (Build.run deps b).succeeded = false ∧ (Build.run deps b).err = some e)
      ∧ (∀ p h s, deps.fetch b.source = .ok p → deps.create b.image = .ok h →
          deps.copyIn h (withTrailingSlash p) (withTrailingSlash b.source.path)
            = .ok () →
          deps.run h b.script = .ok s →
          (Build.run deps b).err = none
            ∧ ((Build.run deps b).succeeded = true ↔ s = 0)) := by
  refine ⟨?_, ?_, ?_, ?_, ?_⟩
  · intro e hf
    simp [Build.run, hf]
  · intro p e hf hc
    simp [Build.run, hf, hc]
  · intro p h e hf hc hcp
    simp [Build.run, hf, hc, hcp]
  · intro p h e hf hc hcp hr
    simp [Build.run, hf, hc, hcp, hr]
  · intro p h s hf hc hcp hr
    simp [Build.run, hf, hc, hcp, hr]

/-- The build specification used throughout `builder_test.go`. -/
def testBuild : Build :=
  { image := "some-image-name",
    script := "./bin/test",
    source :=
      { type_ := "raw",
        uri := "http://example.com/foo.tar.gz",
        path := "some/source/path" } }

/-- The happy-path fakes of `builder_test.go`: fetch yields "/path/on/disk",
creation yields "some-handle", copy-in succeeds, the script exits 0. -/
def okDeps : BuilderDeps :=
  { fetch := fun _ => .ok "/path/on/disk",
    create := fun _ => .ok "some-handle",
    copyIn := fun _ _ _ => .ok (),
    run := fun _ _ => .ok 0 }

/-- The fakes with a failing source fetch ("oh no!"). -/
def failFetchDeps : BuilderDeps :=
  { okDeps with fetch := fun _ => .error "oh no!" }

theorem build_outcome_axes_witness :
    ((Build.run okDeps testBuild).err = none
        ∧ ((Build.run okDeps testBuild).succeeded = true ↔ (0 : Nat) = 0))
      ∧ ((Build.run failFetchDeps testBuild).succeeded = false
          ∧ (Build.run failFetchDeps testBuild).err = some "oh no!") :=
  ⟨(build_outcome_axes okDeps testBuild).2.2.2.2 "/path/on/disk" "some-handle" 0
      rfl rfl rfl rfl,
    (build_outcome_axes failFetchDeps testBuild).1 "oh no!" rfl⟩

/-- C8: whenever fetch yields a path `p` and container creation succeeds,
`Build` requests a copy-in of `p` into the build's configured destination
path, both normalized with trailing separators; normalization always yields
a path ending in the separator, and is the identity on a path that already
ends in one. -/
theorem staging_paths_normalized (deps : BuilderDeps) (b : Build) (p h : String)
    (hf : deps.fetch b.source = .ok p) (hc : deps.create b.image = .ok h) :
    ({ source := withTrailingSlash p,
        destination := withTrailingSlash b.source.path } : CopyInSpec)
        ∈ (Build.run deps b).copies
      ∧ endsWithSep (withTrailingSlash p) = true
      ∧ endsWithSep (withTrailingSlash b.source.path) = true
      ∧ withTrailingSlash (withTrailingSlash p) = withTrailingSlash p
      ∧ withTrailingSlash (withTrailingSlash b.source.path)
          = withTrailingSlash b.source.path := by
  refine ⟨?_, endsWithSep_withTrailingSlash p,
    endsWithSep_withTrailingSlash b.source.path, withTrailingSlash_idem p,
    withTrailingSlash_idem b.source.path⟩
  cases hcp : deps.copyIn h (withTrailingSlash p) (withTrailingSlash b.source.path) with
  | error e => simp [Build.run, hf, hc, hcp]
  | ok u =>
    cases hr : deps.run h b.script with
    | error e => simp [Build.run, hf, hc, hcp, hr]
    | ok s => simp [Build.run, hf, hc, hcp, hr]

theorem staging_paths_normalized_witness :
    ({ source := "/path/on/disk/", destination := "some/source/path/" } : CopyInSpec)
        ∈ (Build.run okDeps testBuild).copies
      ∧ endsWithSep "/path/on/disk/" = true
      ∧ endsWithSep "some/source/path/" = true
      ∧ withTrailingSlash "/path/on/disk/" = "/path/on/disk/"
      ∧ withTrailingSlash "some/source/path/" = "some/source/path/" := by
  have h := staging_paths_normalized okDeps testBuild "/path/on/disk" "some-handle"
    rfl rfl
  have e1 : withTrailingSlash "/path/on/disk" = "/path/on/disk/" := by decide
  have e2 : withTrailingSlash "some/source/path" = "some/source/path/" := by decide
  have e3 : testBuild.source.path = "some/source/path" := rfl
  rw [e3, e1, e2] at h
  exact h

end Builder

namespace Check

/-- The decoded request body (`builds.Input`): resource type, source, and an
optional version. -/
structure CheckInput where
  typ : String
  source : String
  version : Option String
deriving DecidableEq, Repr

/-- An HTTP response: the status written (200 when the handler never calls
`WriteHeader` before its first write) and the body. -/
structure HandlerResponse where
  status : Nat
  body : String
deriving DecidableEq, Repr

/-- Which collaborators the handler invoked: `tracker.Init` and
`resource.Check`. -/
structure CheckTrace where
  initCalled : Bool
  checkCalled : Bool
deriving DecidableEq, Repr

/-- `Handler.ServeHTTP` from `src/api/check/handler.go`, over oracles for the
request-body JSON decode, `tracker.Init` (keyed by the input's type),
`resource.Check`, and the JSON encoding of the version list.  A decode
failure writes 400 and the raw error text; an `Init` or `Check` failure
writes 500 and the error text; otherwise the encoded versions are written
with the implicit 200 status.  (`tracker.Release` is deferred after a
successful `Init` and does not affect the response.) -/
def ServeHTTP {R V : Type} (decodeBody : Except String CheckInput)
    (trackerInit : String → Except String R)
    (resourceCheck : R → CheckInput → Except String (List V))
    (encodeVersions : List V → String) : HandlerResponse × CheckTrace :=
  match decodeBody with
  | .error e => (⟨400, e⟩, ⟨false, false⟩)
  | .ok input =>
    match trackerInit input.typ with
    | .error e => (⟨500, e⟩, ⟨true, false⟩)
    | .ok res =>
      match resourceCheck res input with
      | .error e => (⟨500, e⟩, ⟨true, true⟩)
      | .ok versions => (⟨200, encodeVersions versions⟩, ⟨true, true⟩)

/-- C9: the check handler answers a request whose body fails to decode with
status 400 and the raw error text, calling neither the tracker nor the
resource; a `tracker.Init` failure with status 500 and the error text; a
`resource.Check` failure with status 500 and the error text; and otherwise
with the encoded array of versions `Check` returned. -/
theorem serveHTTP_responses {R V : Type} (dec : Except String CheckInput)
    (init : String → Except String R)
    (check : R → CheckInput → Except String (List V))
    (enc : List V → String) :
    (∀ e, dec = .error e →
      ServeHTTP dec init check enc = (⟨400, e⟩, ⟨false, false⟩))
      ∧ (∀ inp e, dec = .ok inp → init inp.typ = .error e →
          (ServeHTTP dec init check enc).1 = ⟨500, e⟩)
      ∧ (∀ inp r e, dec = .ok inp → init inp.typ = .ok r →
          check r inp = .error e →
          (ServeHTTP dec init check enc).1 = ⟨500, e⟩)
      ∧ (∀ inp r vs, dec = .ok inp → init inp.typ = .ok r →
          check r inp = .ok vs →
          (ServeHTTP dec init check enc).1 = ⟨200, enc vs⟩) := by
  refine ⟨?_, ?_, ?_, ?_⟩
  · intro e hd
    simp [ServeHTTP, hd]
  · intro inp e hd hi
    simp [ServeHTTP, hd, hi]
  · intro inp r e hd hi hc
    simp [ServeHTTP, hd, hi, hc]
  · intro inp r vs hd hi hc
    simp [ServeHTTP, hd, hi, hc]

/-- A concrete decoded request, an initializer yielding handle 7, a check
yielding two versions, and a plain encoder, exercising both the 400 path and
the success path of `serveHTTP_responses`. -/
theorem serveHTTP_responses_witness :
    (ServeHTTP (R := Nat) (V := String) (.error "invalid character")
        (fun _ => .ok 7) (fun _ _ => .ok ["v1", "v2"]) (String.intercalate ",")
        = (⟨400, "invalid character"⟩, ⟨false, false⟩))
      ∧ ((ServeHTTP (.ok ⟨"git", "some-source", none⟩) (fun _ => .ok 7)
            (fun _ _ => .ok ["v1", "v2"]) (String.intercalate ",")).1
          = ⟨200, String.intercalate "," ["v1", "v2"]⟩) :=
  ⟨(serveHTTP_responses (.error "invalid character") (fun _ => .ok 7)
      (fun _ _ => .ok ["v1", "v2"]) (String.intercalate ",")).1
      "invalid character" rfl,
    (serveHTTP_responses (.ok ⟨"git", "some-source", none⟩) (fun _ => .ok 7)
        (fun _ _ => .ok ["v1", "v2"]) (String.intercalate ",")).2.2.2
      ⟨"git", "some-source", none⟩ 7 ["v1", "v2"] rfl rfl rfl⟩

end Check

namespace Turbine

/-- The script to run (`RunConfig` in the turbine build configuration). -/
structure RunConfig where
  path : String
  args : List String
deriving DecidableEq, Repr

/-- One input mapping (`InputConfig`). -/
structure InputConfig where
  name : String
  path : String
deriving DecidableEq, Repr

/-- The build configuration (`Config`): image, params (a Go map, modelled as
an association list read through `lookup`), run config, and inputs. -/
structure Config where
  image : String
  params : List (String × String)
  run : RunConfig
  inputs : List InputConfig
deriving DecidableEq, Repr

/-- Key-by-key merge of the params maps: keys of `a` whose key `b` also
binds are superseded by `b`'s binding; the rest of `a` is preserved and all
of `b` is added. -/
def mergeParams : List (String × String) → List (String × String) → List (String × String)
  | [], b => b
  | p :: as, b =>
    if (b.lookup p.1).isNone then p :: mergeParams as b else mergeParams as b

/-- Modelled from the spec: the implementation of `Config.Merge` is not
among the provided sources (only its tests in `src/builds_test.go` are).
Per the behaviour those tests exercise, the params maps are merged key by
key with the argument's binding winning, while image, run config and inputs
are replaced wholesale by the argument's values whenever the argument sets
them (non-empty image, non-empty run path, non-empty inputs) and kept from
the receiver otherwise. -/
def Config.Merge (c other : Config) : Config :=
  { image := if other.image = "" then c.image else other.image,
    params := mergeParams c.params other.params,
    run := if other.run.path = "" then c.run else other.run,
    inputs := if other.inputs = [] then c.inputs else other.inputs }

theorem lookup_mergeParams_argument (a b : List (String × String)) (k v : String)
    (hb : b.lookup k = some v) : (mergeParams a b).lookup k = some v := by
  induction a with
  | nil => simpa [mergeParams] using hb
  | cons p as ih =>
    by_cases hp : (b.lookup p.1).isNone
    · have hk : (k == p.1) = false := by
        rw [beq_eq_false_iff_ne]
        intro h
        rw [← h, hb] at hp
        simp at hp
      simp [mergeParams, hp, List.lookup, hk, ih]
    · simp [mergeParams, hp, ih]

theorem lookup_mergeParams_receiver (a b : List (String × String)) (k : String)
    (hb : b.lookup k = none) :
    (mergeParams a b).lookup k = a.lookup k := by
  induction a with
  | nil => simpa [mergeParams] using hb
  | cons p as ih =>
    by_cases hkp : k = p.1
    · have hp : (b.lookup p.1).isNone = true := by
        rw [← hkp, hb]
        rfl
      simp [mergeParams, hp, List.lookup, hkp]
    · have hk : (k == p.1) = false := by
        rw [beq_eq_false_iff_ne]
        exact hkp
      by_cases hp : (b.lookup p.1).isNone <;>
        simp [mergeParams, hp, List.lookup, hk, ih]

/-- C10: `Config.Merge` merges the params key by key — a key bound by the
argument takes the argument's value, a key the argument does not bind keeps
the receiver's binding (so keys only in the receiver are preserved and keys
only in the argument are added) — while image, run config and inputs are
replaced wholesale by the argument's values whenever the argument sets them
(run as a unit, so the receiver's args are dropped even when the argument's
run has a path but no args), the receiver's image being kept when the
argument leaves it empty. -/
theorem config_merge_semantics (a b : Config) :
    (∀ k v, b.params.lookup k = some v → ((a.Merge b).params).lookup k = some v)
      ∧ (∀ k, b.params.lookup k = none →
          ((a.Merge b).params).lookup k = a.params.lookup k)
      ∧ (b.image ≠ "" → (a.Merge b).image = b.image)
      ∧ (b.image = "" → (a.Merge b).image = a.image)
      ∧ (b.run.path ≠ "" → (a.Merge b).run = b.run)
      ∧ (b.inputs ≠ [] → (a.Merge b).inputs = b.inputs) := by
  refine ⟨fun k v hb => lookup_mergeParams_argument a.params b.params k v hb,
    fun k hb => lookup_mergeParams_receiver a.params b.params k hb, ?_, ?_, ?_, ?_⟩
  · intro h
    simp [Config.Merge, h]
  · intro h
    simp [Config.Merge, h]
  · intro h
    simp [Config.Merge, h]
  · intro h
    simp [Config.Merge, h]

/-- Receiver and argument of the first merge test of `builds_test.go`. -/
def cfgParamsA : Config :=
  { image := "some-image", params := [("FOO", "1"), ("BAR", "2")],
    run := { path := "", args := [] }, inputs := [] }

def cfgParamsB : Config :=
  { image := "", params := [("FOO", "3"), ("BAZ", "4")],
    run := { path := "", args := [] }, inputs := [] }

/-- Receiver and argument of the run-config override test (argument's run
has a path but no args). -/
def cfgRunA : Config :=
  { image := "", params := [],
    run := { path := "some-path", args := ["arg1", "arg2"] }, inputs := [] }

def cfgRunB : Config :=
  { image := "some-image", params := [],
    run := { path := "better-path", args := [] }, inputs := [] }

theorem config_merge_semantics_witness :
    ((cfgParamsA.Merge cfgParamsB).params.lookup "FOO" = some "3"
        ∧ (cfgParamsA.Merge cfgParamsB).params.lookup "BAR"
            = cfgParamsA.params.lookup "BAR"
        ∧ (cfgParamsA.Merge cfgParamsB).params.lookup "BAZ" = some "4"
        ∧ (cfgParamsA.Merge cfgParamsB).image = cfgParamsA.image)
      ∧ ((cfgRunA.Merge cfgRunB).run = cfgRunB.run
          ∧ (cfgRunA.Merge cfgRunB).image = cfgRunB.image) :=
  ⟨⟨(config_merge_semantics cfgParamsA cfgParamsB).1 "FOO" "3" rfl,
      (config_merge_semantics cfgParamsA cfgParamsB).2.1 "BAR" rfl,
      (config_merge_semantics cfgParamsA cfgParamsB).1 "BAZ" "4" rfl,
      (config_merge_semantics cfgParamsA cfgParamsB).2.2.2.1 rfl⟩,
    ⟨(config_merge_semantics cfgRunA cfgRunB).2.2.2.2.1 (by decide),
      (config_merge_semantics cfgRunA cfgRunB).2.2.1 (by decide)⟩⟩

end Turbine

end Agent
